import Mathlib

/-!
# Verification of the SHTOOLS class interface (`pyshtools/shclasses.py`)

A shallow embedding of the coefficient, grid and window classes of
`shclasses.py`, together with theorems settling the frozen claims about it.

Modelling conventions:
* A coefficient array of shape `(2, lmax+1, lmax+1)` is a total function
  `CArray α = ℕ → ℕ → ℕ → α` (plane, degree `l`, order `m`); statements about
  an array of bandwidth `lmax` quantify over the valid indices
  `i ≤ 1`, `l ≤ lmax`, `m ≤ lmax`.
* `numpy` float entries are real numbers `ℝ`; complex-dtype entries are `ℂ`.
  Assigning a complex value into a real-dtype array keeps its real part
  (numpy casting), which the embedding writes as `Complex.re`.
* String-valued parameters (`normalization`, `convention`, `unit`, `mode`)
  are kept as the source keeps them.  The source lower-cases
  `normalization`/`convention`/`unit` arguments on entry (`.lower()`); the
  embedding takes those strings already lower-cased.  `mode` is compared
  verbatim in the source, and verbatim here.
* Fallible paths (`raise ValueError` etc.) return `Except String`.
* Backend primitives of `_SHTOOLS` that the class code merely orchestrates
  are taken as explicit function parameters, or modelled from the spec where
  a claim needs their contract; such definitions say so in their doc string.
-/

open Real

namespace SHTools

noncomputable section

/-- The three normalization conventions, `'4pi'`, `'ortho'`, `'schmidt'`. -/
inductive Normalization : Type
  | fourpi : Normalization
  | ortho : Normalization
  | schmidt : Normalization
deriving DecidableEq, Repr

/-- Coefficient kind, `'real'` or `'complex'`. -/
inductive Kind : Type
  | real : Kind
  | complex : Kind
deriving DecidableEq, Repr

/-- A rank-3 coefficient array `(plane, l, m) ↦ value`. -/
def CArray (α : Type) : Type := ℕ → ℕ → ℕ → α

/-- The validity mask built in `SHRealCoeffs.__init__` / `SHComplexCoeffs.__init__`:
`mask[:, l, :l+1] = True` for every degree `l` and then `mask[1, :, 0] = False`,
so an entry is valid iff `m ≤ l` and it is not the sine plane at order zero. -/
def mask (i l m : ℕ) : Bool := decide (m ≤ l) && !(decide (i = 1) && decide (m = 0))

/-- The constructor body under `copy=True`: `self.coeffs = np.copy(coeffs);
self.coeffs[~mask] = 0.` (real kind). -/
def applyMask (c : CArray ℝ) : CArray ℝ := fun i l m =>
  if mask i l m then c i l m else 0

/-- The constructor body under `copy=True` for the complex kind. -/
def applyMaskC (c : CArray ℂ) : CArray ℂ := fun i l m =>
  if mask i l m then c i l m else 0

/-- `SHCoeffs.from_zeros`: a zero-filled coefficient array. -/
def zerosArray : CArray ℝ := fun _ _ _ => 0

/-- The spec's invariant: every entry at a masked-out valid index is zero. -/
def OutsideMaskZero {α : Type} [Zero α] (lmax : ℕ) (c : CArray α) : Prop :=
  ∀ i l m, i ≤ 1 → l ≤ lmax → m ≤ lmax → mask i l m = false → c i l m = 0

/-- The per-entry scale factor applied by `_to_array` when converting from
normalization `src` to normalization `dst`.  The degree-dependent factors are
applied by the source only to the slice `coeffs[:, l, :l+1]` (`m ≤ l`); the
degree-independent `sqrt(4*pi)` factors scale the whole array.  Division in
the source (`/=`) is multiplication by the inverse here. -/
def normScale (src dst : Normalization) (l m : ℕ) : ℝ :=
  match src, dst with
  | Normalization.fourpi, Normalization.fourpi => 1
  | Normalization.ortho, Normalization.ortho => 1
  | Normalization.schmidt, Normalization.schmidt => 1
  | Normalization.fourpi, Normalization.schmidt =>
      if m ≤ l then Real.sqrt (2 * (l : ℝ) + 1) else 1
  | Normalization.fourpi, Normalization.ortho => Real.sqrt (4 * π)
  | Normalization.schmidt, Normalization.fourpi =>
      if m ≤ l then (Real.sqrt (2 * (l : ℝ) + 1))⁻¹ else 1
  | Normalization.schmidt, Normalization.ortho =>
      if m ≤ l then Real.sqrt (4 * π / (2 * (l : ℝ) + 1)) else 1
  | Normalization.ortho, Normalization.fourpi => (Real.sqrt (4 * π))⁻¹
  | Normalization.ortho, Normalization.schmidt =>
      if m ≤ l then Real.sqrt ((2 * (l : ℝ) + 1) / (4 * π)) else 1

/-- The Condon-Shortley phase conversion of `_to_array`: when the requested
csphase differs from the stored one, every coefficient at odd order `m` is
negated (`coeffs[:, :, m] = -coeffs[:, :, m]`). -/
def csSign (srcCs dstCs : ℤ) (m : ℕ) : ℝ :=
  if dstCs ≠ srcCs ∧ m % 2 = 1 then -1 else 1

/-- `SHRealCoeffs._to_array(output_normalization, output_csphase, lmax)`:
normalization scaling followed by the csphase sign flip.  The source first
truncates with `np.copy(self.coeffs[:, :lmax+1, :lmax+1])`; in the functional
model the output is read only at indices `l, m ≤ lmax`. -/
def toArrayR (src dst : Normalization) (srcCs dstCs : ℤ) (c : CArray ℝ) : CArray ℝ :=
  fun i l m => csSign srcCs dstCs m * (normScale src dst l m * c i l m)

/-- `SHComplexCoeffs._to_array`: identical factors applied to complex entries. -/
def toArrayC (src dst : Normalization) (srcCs dstCs : ℤ) (c : CArray ℂ) : CArray ℂ :=
  fun i l m => (csSign srcCs dstCs m : ℂ) * ((normScale src dst l m : ℝ) * c i l m)

lemma csSign_cancel (a b : ℤ) (m : ℕ) : csSign b a m * csSign a b m = 1 := by
  unfold csSign
  rcases eq_or_ne a b with h | h
  · simp [h]
  · by_cases hm : m % 2 = 1
    · rw [if_pos ⟨h, hm⟩, if_pos ⟨h.symm, hm⟩]; norm_num
    · rw [if_neg (by tauto), if_neg (by tauto)]; norm_num

lemma sqrt_two_l_add_one_pos (l : ℕ) : 0 < Real.sqrt (2 * (l : ℝ) + 1) :=
  Real.sqrt_pos.mpr (by positivity)

lemma sqrt_four_pi_pos : 0 < Real.sqrt (4 * π) :=
  Real.sqrt_pos.mpr (by positivity)

lemma normScale_cancel (src dst : Normalization) (l m : ℕ) :
    normScale dst src l m * normScale src dst l m = 1 := by
  have hl : (2 * (l : ℝ) + 1) ≠ 0 := by positivity
  have hpi : (4 : ℝ) * π ≠ 0 := by positivity
  have h1 : (Real.sqrt (2 * (l : ℝ) + 1))⁻¹ * Real.sqrt (2 * (l : ℝ) + 1) = 1 :=
    inv_mul_cancel₀ (ne_of_gt (sqrt_two_l_add_one_pos l))
  have h2 : Real.sqrt (2 * (l : ℝ) + 1) * (Real.sqrt (2 * (l : ℝ) + 1))⁻¹ = 1 :=
    mul_inv_cancel₀ (ne_of_gt (sqrt_two_l_add_one_pos l))
  have h3 : (Real.sqrt (4 * π))⁻¹ * Real.sqrt (4 * π) = 1 :=
    inv_mul_cancel₀ (ne_of_gt sqrt_four_pi_pos)
  have h4 : Real.sqrt (4 * π) * (Real.sqrt (4 * π))⁻¹ = 1 :=
    mul_inv_cancel₀ (ne_of_gt sqrt_four_pi_pos)
  have h5 : Real.sqrt ((2 * (l : ℝ) + 1) / (4 * π)) *
      Real.sqrt (4 * π / (2 * (l : ℝ) + 1)) = 1 := by
    rw [← Real.sqrt_mul (by positivity),
      show (2 * (l : ℝ) + 1) / (4 * π) * (4 * π / (2 * (l : ℝ) + 1)) = 1 by
        field_simp]
    exact Real.sqrt_one
  have h6 : Real.sqrt (4 * π / (2 * (l : ℝ) + 1)) *
      Real.sqrt ((2 * (l : ℝ) + 1) / (4 * π)) = 1 := by
    rw [← Real.sqrt_mul (by positivity),
      show 4 * π / (2 * (l : ℝ) + 1) * ((2 * (l : ℝ) + 1) / (4 * π)) = 1 by
        field_simp]
    exact Real.sqrt_one
  cases src <;> cases dst <;> simp only [normScale] <;> (try split_ifs) <;>
    first
      | exact h1
      | exact h2
      | exact h3
      | exact h4
      | exact h5
      | exact h6
      | norm_num

lemma toArrayR_same (n : Normalization) (cs : ℤ) (c : CArray ℝ) (i l m : ℕ) :
    toArrayR n n cs cs c i l m = c i l m := by
  unfold toArrayR csSign
  rw [if_neg (by tauto)]
  cases n <;> unfold normScale <;> ring

/-- C2: converting a real coefficient array from any normalization/csphase to
any other with `_to_array` and converting the result back reproduces the
original array exactly (over `ℝ`), entry by entry, hence for any `lmax ≥ 0`;
the same holds for the complex `_to_array`. -/
theorem to_array_roundtrip :
    (∀ (n1 n2 : Normalization) (cs1 cs2 : ℤ) (c : CArray ℝ) (i l m : ℕ),
      toArrayR n2 n1 cs2 cs1 (toArrayR n1 n2 cs1 cs2 c) i l m = c i l m) ∧
    (∀ (n1 n2 : Normalization) (cs1 cs2 : ℤ) (c : CArray ℂ) (i l m : ℕ),
      toArrayC n2 n1 cs2 cs1 (toArrayC n1 n2 cs1 cs2 c) i l m = c i l m) := by
  constructor
  · intro n1 n2 cs1 cs2 c i l m
    unfold toArrayR
    calc csSign cs2 cs1 m * (normScale n2 n1 l m *
          (csSign cs1 cs2 m * (normScale n1 n2 l m * c i l m)))
        = (csSign cs2 cs1 m * csSign cs1 cs2 m) *
          ((normScale n2 n1 l m * normScale n1 n2 l m) * c i l m) := by ring
      _ = c i l m := by
          rw [csSign_cancel, normScale_cancel]; ring
  · intro n1 n2 cs1 cs2 c i l m
    unfold toArrayC
    calc (csSign cs2 cs1 m : ℂ) * ((normScale n2 n1 l m : ℝ) *
          ((csSign cs1 cs2 m : ℂ) * ((normScale n1 n2 l m : ℝ) * c i l m)))
        = ((csSign cs2 cs1 m * csSign cs1 cs2 m : ℝ) : ℂ) *
          (((normScale n2 n1 l m * normScale n1 n2 l m : ℝ) : ℂ) * c i l m) := by
          push_cast; ring
      _ = c i l m := by
          rw [csSign_cancel, normScale_cancel]; norm_num

/-- Modelled from the spec: the backend primitive `SHrtoc` (real-to-complex
coefficient conversion, `convention=1, switchcs=0`), whose code is not under
`src/`.  Following §4.2 of the spec: for order `m > 0` the complex coefficient
is `c(l,m) = (a(l,m) - i*b(l,m))/2` with a sign flip at odd `m`, and for
`m = 0` it is real, equal to `a(l,0)`.  The backend returns the real and
imaginary parts as the two planes of a real array. -/
def SHrtoc (a : CArray ℝ) : CArray ℝ := fun i l m =>
  if m = 0 then
    if i = 0 then a 0 l 0 else 0
  else
    if i = 0 then (if m % 2 = 1 then -1 else 1) * (a 0 l m / 2)
    else (if m % 2 = 1 then -1 else 1) * (-(a 1 l m) / 2)

/-- `SHRealCoeffs._make_complex`: plane 0 is `SHrtoc`'s output packed as
complex numbers, plane 1 is its conjugate, negated at odd orders `m` (the
loop runs over `m` in `self.degrees()`, i.e. `m ≤ lmax`).  The result is
passed to `from_array` with `copy=False`, so no mask is applied. -/
def makeComplex (lmax : ℕ) (a : CArray ℝ) : CArray ℂ := fun i l m =>
  let c0 : ℂ := Complex.mk (SHrtoc a 0 l m) (SHrtoc a 1 l m)
  if i = 0 then c0
  else if m % 2 = 1 ∧ m ≤ lmax then -(starRingEnd ℂ c0) else starRingEnd ℂ c0

/-- `SHCoeffs.convert` with `kind='complex'` on a real instance: the
`_make_complex` result is run through `to_array` at the requested
normalization/csphase and handed to `from_array` with `copy=False`
(no mask application). -/
def convertRealToComplex (lmax : ℕ) (src dst : Normalization) (srcCs dstCs : ℤ)
    (a : CArray ℝ) : CArray ℂ :=
  toArrayC src dst srcCs dstCs (makeComplex lmax a)

/-- C1 (amended): the mask-zero invariant holds on every path that runs the
constructor with `copy=True` — `from_array`, `from_zeros`, `from_random`,
`from_file` all do — and is preserved by `_to_array` (hence by
`to_array` followed by `from_array`, and by `convert` without a kind change,
which pass the already-invariant array with `copy=False`). -/
theorem mask_invariant_factories :
    (∀ (lmax : ℕ) (c : CArray ℝ), OutsideMaskZero lmax (applyMask c)) ∧
    (∀ lmax : ℕ, OutsideMaskZero lmax zerosArray) ∧
    (∀ (lmax : ℕ) (c : CArray ℂ), OutsideMaskZero lmax (applyMaskC c)) ∧
    (∀ (lmax : ℕ) (src dst : Normalization) (cs1 cs2 : ℤ) (c : CArray ℝ),
      OutsideMaskZero lmax c → OutsideMaskZero lmax (toArrayR src dst cs1 cs2 c)) ∧
    (∀ (lmax : ℕ) (src dst : Normalization) (cs1 cs2 : ℤ) (c : CArray ℂ),
      OutsideMaskZero lmax c → OutsideMaskZero lmax (toArrayC src dst cs1 cs2 c)) := by
  refine ⟨?_, ?_, ?_, ?_, ?_⟩
  · intro lmax c i l m _ _ _ hm
    simp [applyMask, hm]
  · intro lmax i l m _ _ _ _
    rfl
  · intro lmax c i l m _ _ _ hm
    simp [applyMaskC, hm]
  · intro lmax src dst cs1 cs2 c hc i l m hi hl hmm hm
    unfold toArrayR
    rw [hc i l m hi hl hmm hm]
    ring
  · intro lmax src dst cs1 cs2 c hc i l m hi hl hmm hm
    unfold toArrayC
    rw [hc i l m hi hl hmm hm]
    ring

/-- C1 (counterexample): `convert` from real to complex kind violates the
invariant.  Start from the real array with `a(0,0) = 1` (as built by
`from_array` with `copy=True`) and convert it to complex kind at the same
normalization and csphase: the resulting coefficient array holds `1` at the
masked-out index `(1, 0, 0)`, not `0`. -/
theorem convert_complex_breaks_mask_invariant :
    mask 1 0 0 = false ∧
    convertRealToComplex 0 Normalization.fourpi Normalization.fourpi 1 1
      (applyMask (fun _ _ _ => 1)) 1 0 0 = 1 := by
  constructor
  · rfl
  · unfold convertRealToComplex toArrayC makeComplex SHrtoc applyMask mask csSign normScale
    norm_num
    rw [show (Complex.mk 1 0) = (1 : ℂ) from rfl]
    simp

/-- An `SHCoeffs` instance: kind, normalization, csphase, bandwidth, and the
coefficient array.  Entries live in `ℂ` so that both kinds fit one type; a
`kind = real` instance stores real-valued entries (real numpy dtype). -/
structure SHC : Type where
  kind : Kind
  normalization : Normalization
  csphase : ℤ
  lmax : ℕ
  coeffs : CArray ℂ

/-- The compatibility test shared by `__add__`, `__sub__`, `__mul__`,
`__truediv__`: equal normalization, csphase, and kind. -/
def compat (x y : SHC) : Prop :=
  x.normalization = y.normalization ∧ x.csphase = y.csphase ∧ x.kind = y.kind

instance (x y : SHC) : Decidable (compat x y) := by
  unfold compat
  infer_instance

/-- The `ValueError` message raised by the operators on mismatched operands. -/
def mismatchMsg : String :=
  "The two sets of coefficients must be of the same kind and have the same normalization and csphase."

/-- `SHCoeffs.__add__` on two coefficient instances: on compatible operands it
fills `coeffs = np.zeros([2, lmax+1, lmax+1])` — a real-dtype array — at the
masked entries with the sum (numpy casts a complex value assigned into a real
array to its real part) and rebuilds through `from_array`, which sees a real
array and dispatches to the real kind; on mismatch it raises `ValueError`. -/
def addSHC (x y : SHC) : Except String SHC :=
  if compat x y then
    Except.ok
      { kind := Kind.real
        normalization := x.normalization
        csphase := x.csphase
        lmax := x.lmax
        coeffs := fun i l m =>
          if mask i l m then (((x.coeffs i l m + y.coeffs i l m).re : ℝ) : ℂ) else 0 }
  else Except.error mismatchMsg

/-- `SHCoeffs.__sub__` on two coefficient instances. -/
def subSHC (x y : SHC) : Except String SHC :=
  if compat x y then
    Except.ok
      { kind := Kind.real
        normalization := x.normalization
        csphase := x.csphase
        lmax := x.lmax
        coeffs := fun i l m =>
          if mask i l m then (((x.coeffs i l m - y.coeffs i l m).re : ℝ) : ℂ) else 0 }
  else Except.error mismatchMsg

/-- `SHCoeffs.__mul__` on two coefficient instances. -/
def mulSHC (x y : SHC) : Except String SHC :=
  if compat x y then
    Except.ok
      { kind := Kind.real
        normalization := x.normalization
        csphase := x.csphase
        lmax := x.lmax
        coeffs := fun i l m =>
          if mask i l m then (((x.coeffs i l m * y.coeffs i l m).re : ℝ) : ℂ) else 0 }
  else Except.error mismatchMsg

/-- `SHCoeffs.__truediv__` (elementwise division) on two coefficient
instances. -/
def divSHC (x y : SHC) : Except String SHC :=
  if compat x y then
    Except.ok
      { kind := Kind.real
        normalization := x.normalization
        csphase := x.csphase
        lmax := x.lmax
        coeffs := fun i l m =>
          if mask i l m then (((x.coeffs i l m / y.coeffs i l m).re : ℝ) : ℂ) else 0 }
  else Except.error mismatchMsg

/-- C3: each binary operation (add, subtract, multiply, elementwise divide)
returns a new coefficient set exactly when the operands agree in
normalization, csphase and kind; on any mismatch it signals the
incompatibility `ValueError` (and, the model being functional, the operands
are untouched). -/
theorem arithmetic_compat (x y : SHC) :
    ((∃ z, addSHC x y = Except.ok z) ↔ compat x y) ∧
    ((∃ z, subSHC x y = Except.ok z) ↔ compat x y) ∧
    ((∃ z, mulSHC x y = Except.ok z) ↔ compat x y) ∧
    ((∃ z, divSHC x y = Except.ok z) ↔ compat x y) ∧
    (¬compat x y →
      addSHC x y = Except.error mismatchMsg ∧
      subSHC x y = Except.error mismatchMsg ∧
      mulSHC x y = Except.error mismatchMsg ∧
      divSHC x y = Except.error mismatchMsg) := by
  by_cases h : compat x y
  · refine ⟨?_, ?_, ?_, ?_, fun hn => absurd h hn⟩ <;>
      simp [addSHC, subSHC, mulSHC, divSHC, h]
  · refine ⟨?_, ?_, ?_, ?_, fun _ => ?_⟩ <;>
      simp [addSHC, subSHC, mulSHC, divSHC, h]

/-- C9: the operators allocate the result as a real-dtype array whatever the
operands' kind, so adding two compatible complex instances loses the
imaginary parts: with both operands holding `i` at the valid index
`(0, 0, 0)`, the sum instance is of real kind and holds `re(i + i) = 0`
there, not the complex sum `2i`. -/
theorem add_complex_drops_imaginary :
    ∃ z, addSHC
        ⟨Kind.complex, Normalization.fourpi, 1, 0, fun _ _ _ => Complex.I⟩
        ⟨Kind.complex, Normalization.fourpi, 1, 0, fun _ _ _ => Complex.I⟩ =
        Except.ok z ∧
      z.kind = Kind.real ∧
      z.coeffs 0 0 0 ≠ Complex.I + Complex.I := by
  refine ⟨_, rfl, rfl, ?_⟩
  have hmask : mask 0 0 0 = true := rfl
  simp only [hmask, if_true, Complex.add_re, Complex.I_re]
  intro h
  have := congrArg Complex.im h
  simp at this
  norm_num at this

/-- The unit-conversion tail of `_spectrum` (shared by the real and complex
classes): the `energy` convention multiplies by `4*pi`, then `unit` selects
`per_l` (unchanged), `per_lm` (divide by `2l+1`), or `per_dlogl` (multiply by
`l*log(base)`); any other unit string raises `ValueError`.  `s` is the
spectrum after the convention/normalization scaling, as a per-degree
function. -/
def spectrumUnits (convention unitStr : String) (base : ℝ) (s : ℕ → ℝ) :
    Except String (ℕ → ℝ) :=
  let s2 : ℕ → ℝ := if convention = "energy" then fun l => s l * (4 * π) else s
  if unitStr = "per_l" then Except.ok s2
  else if unitStr = "per_lm" then Except.ok (fun l => s2 l / (2 * (l : ℝ) + 1))
  else if unitStr = "per_dlogl" then Except.ok (fun l => s2 l * ((l : ℝ) * Real.log base))
  else Except.error "unit must be per_l, per_lm, or per_dlogl."

/-- `SHRealCoeffs._spectrum` / `SHComplexCoeffs._spectrum`, with the backend
per-degree power spectrum (`SHPowerSpectrum` / `SHPowerSpectrumC` applied to
`self.coeffs`) abstracted as the function `ps`.  `l2norm` returns `ps`
unscaled; `power`/`energy` divide by `2l+1` for Schmidt and by `4*pi` for
orthonormal coefficients; any other convention string raises `ValueError`.
The string arguments are taken already lower-cased (the source applies
`.lower()`). -/
def spectrumCore (ps : ℕ → ℝ) (norm : Normalization) (convention unitStr : String)
    (base : ℝ) : Except String (ℕ → ℝ) :=
  if convention = "l2norm" then spectrumUnits convention unitStr base ps
  else if convention = "power" ∨ convention = "energy" then
    spectrumUnits convention unitStr base
      (match norm with
        | Normalization.fourpi => ps
        | Normalization.schmidt => fun l => ps l / (2 * (l : ℝ) + 1)
        | Normalization.ortho => fun l => ps l / (4 * π))
  else Except.error "convention must be power, energy, or l2norm."

/-- C4: for every backend spectrum, normalization and valid convention, the
spectrum with `unit='per_lm'` equals, degree by degree, the spectrum with
`unit='per_l'` divided by `2l+1`. -/
theorem spectrum_per_lm_eq_per_l_div (ps : ℕ → ℝ) (norm : Normalization)
    (convention : String) (base : ℝ)
    (hconv : convention = "power" ∨ convention = "energy" ∨ convention = "l2norm") :
    ∃ f g, spectrumCore ps norm convention "per_lm" base = Except.ok f ∧
      spectrumCore ps norm convention "per_l" base = Except.ok g ∧
      ∀ l, f l = g l / (2 * (l : ℝ) + 1) := by
  rcases hconv with h | h | h <;> subst h <;>
    refine ⟨_, _, rfl, rfl, fun l => rfl⟩

/-- Witness for C4 at a concrete input: `convention='power'`, the identity
backend spectrum, 4π-normalization, base 10. -/
theorem spectrum_per_lm_eq_per_l_div_witness :
    (("power" : String) = "power" ∨ ("power" : String) = "energy" ∨
      ("power" : String) = "l2norm") ∧
    ∃ f g, spectrumCore (fun l => (l : ℝ)) Normalization.fourpi "power" "per_lm" 10 =
        Except.ok f ∧
      spectrumCore (fun l => (l : ℝ)) Normalization.fourpi "power" "per_l" 10 =
        Except.ok g ∧
      ∀ l, f l = g l / (2 * (l : ℝ) + 1) :=
  ⟨Or.inl rfl,
    spectrum_per_lm_eq_per_l_div (fun l => (l : ℝ)) Normalization.fourpi "power" 10
      (Or.inl rfl)⟩

/-- `SHCoeffs.set_coeffs` for a single value: the sign of the order selects
the plane (`(ms < 0).astype(int)`), and entry `(plane, l, |m|)` is set
in place. -/
def set_coeffs (c : CArray ℝ) (value : ℝ) (l : ℕ) (m : ℤ) : CArray ℝ :=
  fun i l2 m2 =>
    if i = (if m < 0 then 1 else 0) ∧ l2 = l ∧ m2 = m.natAbs then value
    else c i l2 m2

/-- C8: `set_coeffs` writes the value at `(plane, l, |m|)` with the plane
chosen by the sign of the order, and leaves every other entry unchanged; on a
zero-filled real set with `lmax = 2`, `set_coeffs(10., 1, 1)` followed by
`to_array()` (the instance's own normalization and csphase) shows `10` at
`(0, 1, 1)` and zero at every other valid index. -/
theorem set_coeffs_in_place :
    (∀ (c : CArray ℝ) (v : ℝ) (l : ℕ) (m : ℤ),
      set_coeffs c v l m (if m < 0 then 1 else 0) l m.natAbs = v) ∧
    (∀ (c : CArray ℝ) (v : ℝ) (l : ℕ) (m : ℤ) (i l2 m2 : ℕ),
      ¬(i = (if m < 0 then 1 else 0) ∧ l2 = l ∧ m2 = m.natAbs) →
      set_coeffs c v l m i l2 m2 = c i l2 m2) ∧
    (∀ i l m : ℕ, i ≤ 1 → l ≤ 2 → m ≤ 2 →
      toArrayR Normalization.fourpi Normalization.fourpi 1 1
          (set_coeffs zerosArray 10 1 1) i l m =
        if i = 0 ∧ l = 1 ∧ m = 1 then 10 else 0) := by
  refine ⟨?_, ?_, ?_⟩
  · intro c v l m
    simp [set_coeffs]
  · intro c v l m i l2 m2 h
    simp only [set_coeffs, if_neg h]
  · intro i l m _ _ _
    rw [toArrayR_same]
    by_cases h : i = 0 ∧ l = 1 ∧ m = 1
    · obtain ⟨hi, hl, hm⟩ := h
      subst hi; subst hl; subst hm
      simp [set_coeffs]
    · rw [if_neg h]
      have h1 : ¬(i = (if (1 : ℤ) < 0 then 1 else 0) ∧ l = 1 ∧ m = (1 : ℤ).natAbs) := by
        simpa using h
      simp only [set_coeffs, if_neg h1]
      rfl

/-- A constructed `DHRealGrid`: dimensions, longitudinal sampling, and the
derived bandwidth (`int(nlat/2 - 1)`, an integer so that degenerate shapes
keep Python's value). -/
structure DHGrid : Type where
  nlat : ℕ
  nlon : ℕ
  sampling : ℕ
  lmax : ℤ
deriving DecidableEq, Repr

/-- `DHRealGrid.__init__` on an array of shape `(nlat, nlon)`: `nlat` must be
even; `nlon = 2*nlat` gives sampling 2, `nlon = nlat` gives sampling 1, any
other shape raises `ValueError`; `lmax = nlat/2 - 1`. -/
def dhRealGridInit (nlat nlon : ℕ) : Except String DHGrid :=
  if nlat % 2 ≠ 0 then
    Except.error "Input arrays for DH grids must have an even number of latitudes"
  else if nlon = 2 * nlat then
    Except.ok ⟨nlat, nlon, 2, (nlat : ℤ) / 2 - 1⟩
  else if nlat = nlon then
    Except.ok ⟨nlat, nlon, 1, (nlat : ℤ) / 2 - 1⟩
  else
    Except.error "Input array has shape (nlat, nlon) but needs nlat=nlon or nlat=2*nlon"

/-- A constructed `GLQRealGrid` (the quadrature nodes and weights, supplied by
the backend `SHGLQ`, are not part of the dimension logic). -/
structure GLQGrid : Type where
  nlat : ℕ
  nlon : ℕ
  lmax : ℤ
deriving DecidableEq, Repr

/-- `GLQRealGrid.__init__` on an array of shape `(nlat, nlon)`:
`lmax = nlat - 1`, and the shape must satisfy `nlat = lmax + 1` (always true)
and `nlon = 2*lmax + 1`, else `ValueError`. -/
def glqRealGridInit (nlat nlon : ℕ) : Except String GLQGrid :=
  if (nlat : ℤ) ≠ ((nlat : ℤ) - 1) + 1 ∨ (nlon : ℤ) ≠ 2 * ((nlat : ℤ) - 1) + 1 then
    Except.error "Input array has shape (nlat, nlon) but needs (lmax+1, 2*lmax+1)"
  else
    Except.ok ⟨nlat, nlon, (nlat : ℤ) - 1⟩

/-- C6: grid construction enforces the sampling-scheme invariants and derives
`lmax` from the shape: a DH grid needs `nlat` even and `nlon ∈ {nlat, 2*nlat}`
with `lmax = nlat/2 - 1` (shape `(4,4)` gives `lmax = 1`); a GLQ grid needs
`nlon = 2*nlat - 1` with `lmax = nlat - 1` (shape `(3,5)` gives `lmax = 2`);
shape `(3,4)` for GLQ raises the dimension error. -/
theorem grid_shape_invariants :
    (∀ nlat nlon g, dhRealGridInit nlat nlon = Except.ok g →
      nlat % 2 = 0 ∧ (nlon = nlat ∨ nlon = 2 * nlat) ∧ g.lmax = (nlat : ℤ) / 2 - 1) ∧
    (∃ g, dhRealGridInit 4 4 = Except.ok g ∧ g.lmax = 1) ∧
    (∀ nlat nlon g, glqRealGridInit nlat nlon = Except.ok g →
      (nlon : ℤ) = 2 * (nlat : ℤ) - 1 ∧ g.lmax = (nlat : ℤ) - 1) ∧
    (∃ g, glqRealGridInit 3 5 = Except.ok g ∧ g.lmax = 2) ∧
    (∃ e, glqRealGridInit 3 4 = Except.error e) := by
  refine ⟨?_, ⟨⟨4, 4, 1, 1⟩, rfl, rfl⟩, ?_, ⟨⟨3, 5, 2⟩, rfl, rfl⟩, ⟨_, rfl⟩⟩
  · intro nlat nlon g h
    unfold dhRealGridInit at h
    by_cases h1 : nlat % 2 ≠ 0
    · rw [if_pos h1] at h
      exact Except.noConfusion h
    · rw [if_neg h1] at h
      by_cases h2 : nlon = 2 * nlat
      · rw [if_pos h2] at h
        cases Except.ok.inj h
        exact ⟨by omega, Or.inr h2, rfl⟩
      · rw [if_neg h2] at h
        by_cases h3 : nlat = nlon
        · rw [if_pos h3] at h
          cases Except.ok.inj h
          exact ⟨by omega, Or.inl h3.symm, rfl⟩
        · rw [if_neg h3] at h
          exact Except.noConfusion h
  · intro nlat nlon g h
    unfold glqRealGridInit at h
    by_cases h1 : (nlat : ℤ) ≠ ((nlat : ℤ) - 1) + 1 ∨ (nlon : ℤ) ≠ 2 * ((nlat : ℤ) - 1) + 1
    · rw [if_pos h1] at h
      exact Except.noConfusion h
    · rw [if_neg h1] at h
      cases Except.ok.inj h
      push_neg at h1
      exact ⟨by omega, rfl⟩

/-- `np.radians`: degrees to radians. -/
def radians (x : ℝ) : ℝ := x * π / 180

/-- `SHRealCoeffs._rotate`, with the backend rotation applier
`SHRotateRealCoef` (and the rotation matrix `djpi2`, folded into it) taken as
the parameter `R`.  The input is canonicalized with
`to_array(normalization='4pi', csphase=1)` and rotated.  When the instance's
normalization is `'4pi'` and its csphase is `1`, the rotated array is
returned through `from_array(coeffs, copy=False)`.  Otherwise the source
executes `SHCoeffs.from_array(coeffs, kind='real')` — but `from_array` has no
parameter named `kind`, so Python raises
`TypeError: from_array() got an unexpected keyword argument 'kind'`; the
model returns that as the error. -/
def rotateRealCore (R : CArray ℝ → ℝ × ℝ × ℝ → CArray ℝ)
    (norm : Normalization) (cs : ℤ) (c : CArray ℝ) (angles : ℝ × ℝ × ℝ) :
    Except String (CArray ℝ) :=
  let rotated := R (toArrayR norm Normalization.fourpi cs 1 c) angles
  if norm ≠ Normalization.fourpi ∨ cs ≠ 1 then
    Except.error "TypeError: from_array() got an unexpected keyword argument kind"
  else Except.ok rotated

/-- `SHCoeffs.rotate(alpha, beta, gamma, degrees)` for the real kind: the
angles are converted to radians when `degrees=True`, then `_rotate` runs. -/
def rotateReal (R : CArray ℝ → ℝ × ℝ × ℝ → CArray ℝ)
    (norm : Normalization) (cs : ℤ) (c : CArray ℝ)
    (alpha beta gamma : ℝ) (degs : Bool) : Except String (CArray ℝ) :=
  rotateRealCore R norm cs c
    (if degs then (radians alpha, radians beta, radians gamma)
      else (alpha, beta, gamma))

/-- C5 (code bug): rotation by `(0,0,0)` returns the coefficients unchanged
only for `'4pi'`-normalized, csphase `1` real coefficients — for every
backend rotation applier that is the identity at zero angles, that branch
gives back exactly the input array.  For any other normalization or csphase,
`_rotate` does not rotate at all: it crashes with a `TypeError` on its call
`SHCoeffs.from_array(coeffs, kind='real')` (no such keyword), as the second
conjunct evaluates at normalization `'schmidt'`. -/
theorem rotate_zero_identity_and_bug :
    (∀ (R : CArray ℝ → ℝ × ℝ × ℝ → CArray ℝ) (c : CArray ℝ),
      (∀ a, R a (0, 0, 0) = a) →
      rotateReal R Normalization.fourpi 1 c 0 0 0 true =
        Except.ok (toArrayR Normalization.fourpi Normalization.fourpi 1 1 c) ∧
      ∀ i l m, toArrayR Normalization.fourpi Normalization.fourpi 1 1 c i l m =
        c i l m) ∧
    rotateReal (fun a _ => a) Normalization.schmidt 1 (fun _ _ _ => 0) 0 0 0 true =
      Except.error "TypeError: from_array() got an unexpected keyword argument kind" := by
  constructor
  · intro R c hR
    constructor
    · have hz : radians 0 = 0 := by simp [radians]
      simp only [rotateReal, rotateRealCore, hz, if_true]
      rw [hR]
      simp
    · intro i l m
      exact toArrayR_same Normalization.fourpi 1 c i l m
  · rfl

/-- The coupling matrix as a shaped array: row and column counts plus the
entries. -/
structure CMat : Type where
  nrows : ℕ
  ncols : ℕ
  entry : ℕ → ℕ → ℝ

/-- Row truncation `cmatrix[:k, :]` (numpy slicing caps at the row count). -/
def truncRows (k : ℕ) (M : CMat) : CMat :=
  ⟨min k M.nrows, M.ncols, M.entry⟩

/-- An `SHWindow` bank as the coupling-matrix code uses it: bandwidth,
retained window count, optional stored multitaper weights, and the packed
taper matrix. -/
structure WBank : Type where
  lwin : ℕ
  nwin : ℕ
  weights : Option (List ℝ)
  tapers : ℕ → ℕ → ℝ

/-- Modelled from the spec: the backend coupling-matrix builder
`SHMTCouplingMatrix(lmax, tapers_power, k, taper_wt)`, whose code is not
under `src/`.  Per §4.7 the returned matrix relates an input spectrum of
length `lmax+1` to a biased spectrum of length `lmax+lwin+1`, so its shape is
`(lmax+lwin+1, lmax+1)`; `lwin` is the bandwidth of `tapers_power` (inferred
from its array shape in the backend, passed explicitly here) and the entries,
which the spec leaves to the backend, are abstracted by the parameter `E`. -/
def SHMTCouplingMatrix
    (E : ℕ → (ℕ → ℕ → ℝ) → ℕ → Option (List ℝ) → ℕ → ℕ → ℝ)
    (lwin lmax : ℕ) (tapersPower : ℕ → ℕ → ℝ) (k : ℕ)
    (taper_wt : Option (List ℝ)) : CMat :=
  ⟨lmax + lwin + 1, lmax + 1, E lmax tapersPower k taper_wt⟩

/-- `SHWindowCap._couplingmatrix`: defaults `nwin` and `weights` from the
instance, then calls the backend on `self.tapers**2` — passing
`taper_wt=self.weights` (the instance attribute, not the local `weights`)
whenever the local `weights` is not `None`. -/
def capCouplingInner (bank : WBank)
    (E : ℕ → (ℕ → ℕ → ℝ) → ℕ → Option (List ℝ) → ℕ → ℕ → ℝ)
    (lmax : ℕ) (nwin : Option ℕ) (weights : Option (List ℝ)) : CMat :=
  match (match weights with | none => bank.weights | some w => some w) with
  | none =>
      SHMTCouplingMatrix E bank.lwin lmax (fun i j => bank.tapers i j ^ 2)
        (nwin.getD bank.nwin) none
  | some _ =>
      SHMTCouplingMatrix E bank.lwin lmax (fun i j => bank.tapers i j ^ 2)
        (nwin.getD bank.nwin) bank.weights

/-- `SHWindowMask._couplingmatrix`: like the cap variant, but the power
spectrum of each of the first `nwin` tapers is computed first
(`tapers_power[:, i] = SHPowerSpectrum(self.to_array(i))`, abstracted by
`psOfTaper`, zero columns beyond `nwin`); it forwards `taper_wt=self.weights`
in the same way. -/
def maskCouplingInner (bank : WBank)
    (E : ℕ → (ℕ → ℕ → ℝ) → ℕ → Option (List ℝ) → ℕ → ℕ → ℝ)
    (psOfTaper : ℕ → ℕ → ℝ)
    (lmax : ℕ) (nwin : Option ℕ) (weights : Option (List ℝ)) : CMat :=
  match (match weights with | none => bank.weights | some w => some w) with
  | none =>
      SHMTCouplingMatrix E bank.lwin lmax
        (fun l i => if i < nwin.getD bank.nwin then psOfTaper l i else 0)
        (nwin.getD bank.nwin) none
  | some _ =>
      SHMTCouplingMatrix E bank.lwin lmax
        (fun l i => if i < nwin.getD bank.nwin then psOfTaper l i else 0)
        (nwin.getD bank.nwin) bank.weights

/-- `SHWindow.couplingmatrix` after the weights length check: mode `'full'`
returns `self._couplingmatrix(...)` as is, `'same'` its first `lmax+1` rows,
`'valid'` its first `lmax - self.lwin + 1` rows, and anything else raises
`ValueError`.  `inner` is the variant's `_couplingmatrix`. -/
def couplingmatrixModes (lwin : ℕ) (inner : ℕ → Option ℕ → Option (List ℝ) → CMat)
    (lmax : ℕ) (nwin : Option ℕ) (weights : Option (List ℝ)) (mode : String) :
    Except String CMat :=
  if mode = "full" then Except.ok (inner lmax nwin weights)
  else if mode = "same" then Except.ok (truncRows (lmax + 1) (inner lmax nwin weights))
  else if mode = "valid" then
    Except.ok (truncRows (lmax - lwin + 1) (inner lmax nwin weights))
  else Except.error "mode has to be full, same or valid"

/-- `SHWindow.couplingmatrix(lmax, nwin, weights, mode)`: when `weights` is
given its length is checked against `nwin` (or `self.nwin` when `nwin` is
not given), then the mode dispatch runs. -/
def couplingmatrix (selfNwin lwin : ℕ)
    (inner : ℕ → Option ℕ → Option (List ℝ) → CMat)
    (lmax : ℕ) (nwin : Option ℕ) (weights : Option (List ℝ)) (mode : String) :
    Except String CMat :=
  match weights with
  | some w =>
      match nwin with
      | some n =>
          if w.length ≠ n then
            Except.error "Length of weights must be equal to nwin."
          else couplingmatrixModes lwin inner lmax nwin weights mode
      | none =>
          if w.length ≠ selfNwin then
            Except.error "Length of weights must be equal to nwin."
          else couplingmatrixModes lwin inner lmax nwin weights mode
  | none => couplingmatrixModes lwin inner lmax nwin weights mode

lemma capCouplingInner_nrows (bank : WBank)
    (E : ℕ → (ℕ → ℕ → ℝ) → ℕ → Option (List ℝ) → ℕ → ℕ → ℝ)
    (lmax : ℕ) (nwin : Option ℕ) (weights : Option (List ℝ)) :
    (capCouplingInner bank E lmax nwin weights).nrows = lmax + bank.lwin + 1 := by
  unfold capCouplingInner
  rcases weights with _ | w
  · rcases hb : bank.weights with _ | v <;> rfl
  · rfl

/-- C7: `couplingmatrix(lmax, mode)` obeys the mode contract whenever the
bank's `_couplingmatrix` has the backend shape (rows `lmax + lwin + 1`),
`lwin ≤ lmax`, and any supplied weights pass the length check: `'full'` has
`lmax+lwin+1` rows; `'same'` is exactly the first `lmax+1` rows of `'full'`;
`'valid'` is exactly the first `lmax-lwin+1` rows of `'full'`; every other
mode string is rejected with an error. -/
theorem couplingmatrix_mode_contract (selfNwin lwin : ℕ)
    (inner : ℕ → Option ℕ → Option (List ℝ) → CMat)
    (lmax : ℕ) (nwin : Option ℕ) (weights : Option (List ℝ))
    (hshape : ∀ l n w, (inner l n w).nrows = l + lwin + 1)
    (hlw : lwin ≤ lmax)
    (hwt : ∀ w, weights = some w → w.length = nwin.getD selfNwin) :
    ∃ M, couplingmatrix selfNwin lwin inner lmax nwin weights "full" =
        Except.ok M ∧
      M.nrows = lmax + lwin + 1 ∧
      couplingmatrix selfNwin lwin inner lmax nwin weights "same" =
        Except.ok (truncRows (lmax + 1) M) ∧
      (truncRows (lmax + 1) M).nrows = lmax + 1 ∧
      couplingmatrix selfNwin lwin inner lmax nwin weights "valid" =
        Except.ok (truncRows (lmax - lwin + 1) M) ∧
      (truncRows (lmax - lwin + 1) M).nrows = lmax - lwin + 1 ∧
      ∀ mode, mode ≠ "full" → mode ≠ "same" → mode ≠ "valid" →
        couplingmatrix selfNwin lwin inner lmax nwin weights mode =
          Except.error "mode has to be full, same or valid" := by
  have hgo : ∀ mode, couplingmatrix selfNwin lwin inner lmax nwin weights mode =
      couplingmatrixModes lwin inner lmax nwin weights mode := by
    intro mode
    rcases weights with _ | w
    · rfl
    · rcases nwin with _ | n
      · have hlen : w.length = selfNwin := hwt w rfl
        show (if w.length ≠ selfNwin then
            Except.error "Length of weights must be equal to nwin."
          else couplingmatrixModes lwin inner lmax none (some w) mode) =
          couplingmatrixModes lwin inner lmax none (some w) mode
        rw [if_neg (by omega)]
      · have hlen : w.length = n := hwt w rfl
        show (if w.length ≠ n then
            Except.error "Length of weights must be equal to nwin."
          else couplingmatrixModes lwin inner lmax (some n) (some w) mode) =
          couplingmatrixModes lwin inner lmax (some n) (some w) mode
        rw [if_neg (by omega)]
  refine ⟨inner lmax nwin weights, ?_, hshape lmax nwin weights, ?_, ?_, ?_, ?_, ?_⟩
  · rw [hgo]; rfl
  · rw [hgo]; rfl
  · show min (lmax + 1) (inner lmax nwin weights).nrows = lmax + 1
    rw [hshape]
    omega
  · rw [hgo]; rfl
  · show min (lmax - lwin + 1) (inner lmax nwin weights).nrows = lmax - lwin + 1
    rw [hshape]
    omega
  · intro mode hm1 hm2 hm3
    rw [hgo]
    unfold couplingmatrixModes
    rw [if_neg hm1, if_neg hm2, if_neg hm3]

/-- A concrete cap window bank (bandwidth 3, four retained windows, no stored
weights, zero tapers) used to instantiate the coupling-matrix theorems. -/
def capBankW : WBank := ⟨3, 4, none, fun _ _ => 0⟩

/-- A concrete entry generator for the modelled backend coupling-matrix
builder (all entries zero). -/
def capEW : ℕ → (ℕ → ℕ → ℝ) → ℕ → Option (List ℝ) → ℕ → ℕ → ℝ :=
  fun _ _ _ _ _ _ => 0

/-- `capBankW`'s `_couplingmatrix`. -/
def capInnerW : ℕ → Option ℕ → Option (List ℝ) → CMat :=
  capCouplingInner capBankW capEW

/-- Witness for C7 at `lmax = 5`, `lwin = 3`: mode `'full'` has `9` rows and
mode `'valid'` has `3` rows. -/
theorem couplingmatrix_mode_contract_witness :
    (∀ l n w, (capInnerW l n w).nrows = l + 3 + 1) ∧ (3 : ℕ) ≤ 5 ∧
    (∀ w : List ℝ, (none : Option (List ℝ)) = some w →
      w.length = (none : Option ℕ).getD 4) ∧
    ∃ M, couplingmatrix 4 3 capInnerW 5 none none "full" = Except.ok M ∧
      M.nrows = 5 + 3 + 1 ∧
      couplingmatrix 4 3 capInnerW 5 none none "same" =
        Except.ok (truncRows (5 + 1) M) ∧
      (truncRows (5 + 1) M).nrows = 5 + 1 ∧
      couplingmatrix 4 3 capInnerW 5 none none "valid" =
        Except.ok (truncRows (5 - 3 + 1) M) ∧
      (truncRows (5 - 3 + 1) M).nrows = 5 - 3 + 1 ∧
      ∀ mode, mode ≠ "full" → mode ≠ "same" → mode ≠ "valid" →
        couplingmatrix 4 3 capInnerW 5 none none mode =
          Except.error "mode has to be full, same or valid" :=
  ⟨fun l n w => capCouplingInner_nrows capBankW capEW l n w,
    by norm_num,
    fun w h => Option.noConfusion h,
    couplingmatrix_mode_contract 4 3 capInnerW 5 none none
      (fun l n w => capCouplingInner_nrows capBankW capEW l n w)
      (by norm_num)
      (fun w h => Option.noConfusion h)⟩

/-- C10: when `_couplingmatrix` is reached with an explicit weights array,
the backend is called with `taper_wt = self.weights` — the instance
attribute — not the supplied array: the cap variant's call equals the
backend call at `bank.weights`, two calls differing only in the supplied
weights coincide for both the cap and the mask variants, and at the public
entry point two calls whose supplied weights have equal length (so that the
length check resolves identically) return the same result. -/
theorem couplingmatrix_forwards_instance_weights
    (bank : WBank)
    (E : ℕ → (ℕ → ℕ → ℝ) → ℕ → Option (List ℝ) → ℕ → ℕ → ℝ)
    (psOfTaper : ℕ → ℕ → ℝ) (lmax : ℕ) (nwin : Option ℕ) (w w1 w2 : List ℝ) :
    capCouplingInner bank E lmax nwin (some w) =
      SHMTCouplingMatrix E bank.lwin lmax (fun i j => bank.tapers i j ^ 2)
        (nwin.getD bank.nwin) bank.weights ∧
    capCouplingInner bank E lmax nwin (some w1) =
      capCouplingInner bank E lmax nwin (some w2) ∧
    maskCouplingInner bank E psOfTaper lmax nwin (some w1) =
      maskCouplingInner bank E psOfTaper lmax nwin (some w2) ∧
    ∀ mode, w1.length = w2.length →
      couplingmatrix bank.nwin bank.lwin (capCouplingInner bank E) lmax nwin
          (some w1) mode =
        couplingmatrix bank.nwin bank.lwin (capCouplingInner bank E) lmax nwin
          (some w2) mode := by
  refine ⟨rfl, rfl, rfl, ?_⟩
  intro mode hlen
  rcases nwin with _ | n
  · show (if w1.length ≠ bank.nwin then
        (Except.error "Length of weights must be equal to nwin." : Except String CMat)
      else couplingmatrixModes bank.lwin (capCouplingInner bank E) lmax none
        (some w1) mode) =
      (if w2.length ≠ bank.nwin then
        Except.error "Length of weights must be equal to nwin."
      else couplingmatrixModes bank.lwin (capCouplingInner bank E) lmax none
        (some w2) mode)
    rw [hlen]
    simp only [couplingmatrixModes]
    rw [show capCouplingInner bank E lmax none (some w1) =
      capCouplingInner bank E lmax none (some w2) from rfl]
  · show (if w1.length ≠ n then
        (Except.error "Length of weights must be equal to nwin." : Except String CMat)
      else couplingmatrixModes bank.lwin (capCouplingInner bank E) lmax (some n)
        (some w1) mode) =
      (if w2.length ≠ n then
        Except.error "Length of weights must be equal to nwin."
      else couplingmatrixModes bank.lwin (capCouplingInner bank E) lmax (some n)
        (some w2) mode)
    rw [hlen]
    simp only [couplingmatrixModes]
    rw [show capCouplingInner bank E lmax (some n) (some w1) =
      capCouplingInner bank E lmax (some n) (some w2) from rfl]

end

end SHTools
